import Mathlib

/-!
Shallow embedding of the chart-task orchestration engine in
`atom/tests/charts.py`: dataset validation, per-metric statistics,
the pure data-transform algorithms feeding each chart type, and the
batch orchestration that drives the chart-render jobs and records
per-job failures.  Numeric values are modelled as rationals; the one
irrational quantity (the standard deviation, `np.std`) lives in `ℝ`.
-/

namespace Charts

/-- A data point: an insertion-ordered mapping from metric name to a value
(Python `Dict[str, Union[int, float]]`, modelled as an association list). -/
abbrev DataPoint := List (String × ℚ)

/-- One suite's ordered list of data points (`SuiteData = List[DataPoint]`). -/
abbrev SuiteData := List DataPoint

/-- Performance data over an arbitrary value type: suite name to list of
points, each point an association list of metric names to values.  The
generic value type matters because the integrity validator never inspects
values, only key sets. -/
abbrev PerfData (α : Type) := List (String × List (List (String × α)))

/-- `PerformanceData = Dict[str, SuiteData]`, insertion-ordered. -/
abbrev PerformanceData := PerfData ℚ

/-- Embedding of the `ChartStyle` frozen dataclass fields. -/
structure ChartStyle where
  name : String
  dark_mode : Bool
  dpi : Int
  figure_size : Int × Int
deriving DecidableEq

/-- Embedding of `ChartStyle.__post_init__`: construction returns the style
or the `ValueError` message the Python constructor raises, checking the dpi
bound first and then the figure-size components, exactly as the source. -/
def mkChartStyle (name : String) (dark_mode : Bool) (dpi : Int)
    (figure_size : Int × Int) : Except String ChartStyle :=
  if dpi < 72 ∨ dpi > 600 then
    .error "DPI must be between 72 and 600"
  else if figure_size.1 ≤ 0 ∨ figure_size.2 ≤ 0 then
    .error "Figure size must be positive"
  else
    .ok ⟨name, dark_mode, dpi, figure_size⟩

/-- Embedding of the `PerformanceStats` dataclass.  The standard deviation
is real-valued because `np.std` takes a square root. -/
structure PerformanceStats where
  min_val : ℚ
  max_val : ℚ
  avg_val : ℚ
  std_dev : ℝ
  count : ℕ

/-- Population variance, the square of `np.std`. -/
def popVariance (values : List ℚ) : ℚ :=
  let n : ℚ := values.length
  let m : ℚ := values.sum / n
  (values.map (fun v => (v - m) ^ 2)).sum / n

/-- Embedding of `PerformanceStats.from_values`: raises (returns `.error`)
on an empty list, otherwise `np.min`/`np.max` (folds of `min`/`max`),
`np.mean` (sum over length), `np.std` when more than one value else `0.0`,
and the length as `count`. -/
noncomputable def PerformanceStats.from_values :
    List ℚ → Except String PerformanceStats
  | [] => .error "Cannot compute statistics from empty values list"
  | v :: rest =>
    .ok { min_val := rest.foldl min v
        , max_val := rest.foldl max v
        , avg_val := (v :: rest).sum / ((v :: rest).length : ℚ)
        , std_dev :=
            if (v :: rest).length > 1 then
              Real.sqrt ((popVariance (v :: rest) : ℚ) : ℝ)
            else 0
        , count := (v :: rest).length }

/-- Errors raised by the data-integrity and metric validators
(`PerformanceDataError` with its distinct messages). -/
inductive DataError where
  | emptyData : DataError
  | emptySuite (suite : String) : DataError
  | inconsistentStructure (suite : String) (index : ℕ) : DataError
  | metricNotFound (metric : String) (available : List String) : DataError
deriving DecidableEq

/-- Key list of a point, in insertion order (`point.keys()`). -/
def keys {α : Type} (p : List (String × α)) : List String :=
  p.map Prod.fst

/-- Python set equality of two key lists
(`set(point.keys()) != first_keys` is its negation). -/
def sameKeySet (a b : List String) : Bool :=
  a.all b.contains && b.all a.contains

/-- First index `≥ i` (counting as the source's `enumerate(suite_data[1:], 1)`
does) at which a point's key set differs from the first point's. -/
def firstMismatch (firstKeys : List String) :
    List (List (String × α)) → ℕ → Option ℕ
  | [], _ => none
  | p :: ps, i =>
    if sameKeySet (keys p) firstKeys then firstMismatch firstKeys ps (i + 1)
    else some i

/-- Embedding of the per-suite body of the `validate_data_integrity`
decorator: an empty suite is an error, then every later point's key set is
compared with the first point's, failing at the first mismatch with the
index the source reports (enumeration starts at 1 for the second point). -/
def validateSuite (suite : String) (pts : List (List (String × α))) :
    Except DataError Unit :=
  match pts with
  | [] => .error (.emptySuite suite)
  | first :: rest =>
    match firstMismatch (keys first) rest 1 with
    | some i => .error (.inconsistentStructure suite i)
    | none => .ok ()

/-- Suites are checked in insertion order; the first failing suite wins. -/
def validateSuites : PerfData α → Except DataError Unit
  | [] => .ok ()
  | (name, pts) :: rest =>
    match validateSuite name pts with
    | .error e => .error e
    | .ok _ => validateSuites rest

/-- Embedding of the `validate_data_integrity` decorator's checks: empty
data is an error, then each suite is validated in order.  Values are never
inspected, hence the generic value type. -/
def validateDataIntegrity (data : PerfData α) : Except DataError Unit :=
  match data with
  | [] => .error .emptyData
  | d => validateSuites d

/-- Minimal JSON values, enough for the structural checks in `load_data`. -/
inductive Json where
  | num (v : ℚ)
  | str (s : String)
  | jbool (b : Bool)
  | jnull
  | arr (items : List Json)
  | obj (fields : List (String × Json))

/-- Errors raised by the structural validation inside `load_data`. -/
inductive LoadError where
  | rootNotDict : LoadError
  | suiteNotList (suite : String) : LoadError
  | pointNotDict (suite : String) : LoadError
deriving DecidableEq

/-- Point-list validation from `load_data`: every element must be a dict;
its fields are kept untouched (values are never checked for being numeric). -/
def validatePoints (suite : String) :
    List Json → Except LoadError (List (List (String × Json)))
  | [] => .ok []
  | p :: ps =>
    match p with
    | .obj fields =>
      match validatePoints suite ps with
      | .error e => .error e
      | .ok rest => .ok (fields :: rest)
    | _ => .error (.pointNotDict suite)

/-- Suite-list validation from `load_data`: every suite value must be a
list, whose elements are validated as points. -/
def validateSuitesRaw :
    List (String × Json) →
      Except LoadError (List (String × List (List (String × Json))))
  | [] => .ok []
  | (name, v) :: rest =>
    match v with
    | .arr points =>
      match validatePoints name points with
      | .error e => .error e
      | .ok pts =>
        match validateSuitesRaw rest with
        | .error e => .error e
        | .ok vr => .ok ((name, pts) :: vr)
    | _ => .error (.suiteNotList name)

/-- Embedding of the structural validation `load_data` performs after JSON
parsing: the root must be a dict of lists of dicts.  Nothing else about the
values is checked. -/
def load_data_validate (root : Json) :
    Except LoadError (List (String × List (List (String × Json)))) :=
  match root with
  | .obj fields => validateSuitesRaw fields
  | _ => .error .rootNotDict

/-- Structural shape predicate stated from the spec's words: the root is an
object of arrays of objects.  Used to characterise exactly what
`load_data_validate` accepts. -/
def structurallyValid : Json → Bool
  | .obj fields =>
    fields.all (fun f =>
      match f.2 with
      | .arr pts =>
        pts.all (fun p => match p with | .obj _ => true | _ => false)
      | _ => false)
  | _ => false

/-- Boolean success test for `Except` results. -/
def exceptOk {ε α : Type} : Except ε α → Bool
  | .ok _ => true
  | .error _ => false

/-- Embedding of the `get_available_metrics` lru-cached function: its body
is literally `return []`. -/
def get_available_metrics (data_hash : Int) (data_keys : List String) :
    List String :=
  ([] : List String)

/-- Insertion into a sorted list of strings, for `sorted(...)`. -/
def insertSorted (s : String) : List String → List String
  | [] => [s]
  | t :: ts => if s ≤ t then s :: t :: ts else t :: insertSorted s ts

/-- Insertion sort on strings, modelling Python's `sorted`. -/
def sortStrings (l : List String) : List String :=
  l.foldr insertSorted []

/-- Embedding of `get_available_metrics_uncached`: the sorted key list of
the first point of the first non-empty suite, else `[]`. -/
def availableMetrics : PerfData α → List String
  | [] => []
  | (_, pts) :: rest =>
    match pts with
    | [] => availableMetrics rest
    | p :: _ => sortStrings (keys p)

/-- Embedding of `validate_metric`: the metric must be among the available
metrics, else a `PerformanceDataError` listing them. -/
def validate_metric (data : PerfData α) (metric : String) :
    Except DataError Unit :=
  if metric ∈ availableMetrics data then .ok ()
  else .error (.metricNotFound metric (availableMetrics data))

/-- One chart job as submitted by `generate_all_charts_optimized`. -/
inductive ChartJob where
  | bar (metric : String)
  | line (metric : String)
  | pie (metric : String)
  | histogram (metric : String)
  | scatter (metric_x metric_y : String)
  | heatmap (metrics : List String)
deriving DecidableEq

/-- Scatter jobs for every ordered pair of metrics, in the nested-loop
order of the source (`for i, metric_x in enumerate(metrics[:-1]): for
metric_y in metrics[i+1:]`). -/
def scatterJobs : List String → List ChartJob
  | [] => []
  | x :: rest => rest.map (fun y => ChartJob.scatter x y) ++ scatterJobs rest

/-- The full job list `generate_all_charts_optimized` submits: four jobs per
metric, then the scatter pairs when at least two metrics are given, then
always one heatmap job. -/
def buildJobs (metrics : List String) : List ChartJob :=
  metrics.flatMap (fun m =>
    [ChartJob.bar m, ChartJob.line m, ChartJob.pie m, ChartJob.histogram m])
    ++ (if metrics.length ≥ 2 then scatterJobs metrics else [])
    ++ [ChartJob.heatmap metrics]

/-- The result-collection loop over the completed futures: a successful
job's artifact path is appended to `completed_charts`; a raised exception
is caught and recorded (`logger.error`), never re-raised. -/
def collectResults :
    List (Except DataError String) → List String × List DataError
  | [] => ([], [])
  | .ok path :: rest =>
    ((collectResults rest).1.cons path, (collectResults rest).2)
  | .error e :: rest =>
    ((collectResults rest).1, (collectResults rest).2.cons e)

/-- Observable outcome of `generate_all_charts_optimized`: the internal
`completed_charts` list, the failures recorded by the except-branch, and
the function's actual return value (`output_dir`). -/
structure BatchResult where
  completed_charts : List String
  failures : List DataError
  returned : String
deriving DecidableEq

/-- Embedding of `generate_all_charts_optimized`, parametrised by the job
runner (the submitted chart function together with the rendering backend).
It builds the job list, runs every job, collects successes and caught
failures, and returns `output_dir`. -/
def generate_all_charts_optimized (run : ChartJob → Except DataError String)
    (metrics : List String) (out_dir : String) : BatchResult :=
  { completed_charts := (collectResults ((buildJobs metrics).map run)).1
  , failures := (collectResults ((buildJobs metrics).map run)).2
  , returned := out_dir }

/-- The validation phase each submitted chart function performs before
drawing: the `validate_data_integrity` decorator, then `validate_metric`
for each metric the chart uses; the external renderer is modelled as
succeeding with the destination path the source passes for that job. -/
def runJob (data : PerformanceData) (out_dir : String) :
    ChartJob → Except DataError String
  | .bar m => do
    validateDataIntegrity data
    validate_metric data m
    .ok (out_dir ++ "/" ++ m ++ "_bar.png")
  | .line m => do
    validateDataIntegrity data
    validate_metric data m
    .ok (out_dir ++ "/" ++ m ++ "_line.png")
  | .pie m => do
    validateDataIntegrity data
    validate_metric data m
    .ok (out_dir ++ "/" ++ m ++ "_pie.png")
  | .histogram m => do
    validateDataIntegrity data
    validate_metric data m
    .ok (out_dir ++ "/" ++ m ++ "_histogram.png")
  | .scatter x y => do
    validateDataIntegrity data
    validate_metric data x
    validate_metric data y
    .ok (out_dir ++ "/" ++ y ++ "_vs_" ++ x ++ "_scatter.png")
  | .heatmap ms => do
    validateDataIntegrity data
    ms.forM (validate_metric data)
    .ok (out_dir ++ "/metrics_heatmap.png")

/-- The batch operation instantiated with the actual chart jobs. -/
def generateAllCharts (data : PerformanceData) (metrics : List String)
    (out_dir : String) : BatchResult :=
  generate_all_charts_optimized (runJob data out_dir) metrics out_dir

/-- Iteration `i`'s stacked-bar contribution per suite, in suite-list
order: `values[i] if i < len(values) else 0`. -/
def iterationValues (series : List (List ℚ)) (i : ℕ) : List ℚ :=
  series.map (fun values => values.getD i 0)

/-- Running bottom offsets of the stacked bar chart: zero before the first
iteration, then each iteration's values are added elementwise
(`bottom_values += iteration_values`). -/
def bottomValues (series : List (List ℚ)) : ℕ → List ℚ
  | 0 => series.map (fun _ => 0)
  | i + 1 =>
    List.zipWith (fun a b => a + b) (bottomValues series i)
      (iterationValues series i)

/-- Metric values of one suite as the heatmap reads them
(`[point[metric] for point in suite_data]`); a missing key is defaulted so
the function stays total. -/
def suiteValues (pts : SuiteData) (metric : String) : List ℚ :=
  pts.map (fun p => (p.lookup metric).getD 0)

/-- Arithmetic mean `np.mean`: sum over length. -/
def mean (l : List ℚ) : ℚ :=
  l.sum / (l.length : ℚ)

/-- Embedding of the heatmap matrix construction: one row per suite in
insertion order, one column per metric in input order, each cell the mean
of that metric's values within that suite. -/
def heatmapMatrix (data : PerformanceData) (metrics : List String) :
    List (List ℚ) :=
  data.map (fun s => metrics.map (fun m => mean (suiteValues s.2 m)))

/-- Sum of the x coordinates of a point list. -/
def sumX (pts : List (ℚ × ℚ)) : ℚ := (pts.map (fun p => p.1)).sum

/-- Sum of the y coordinates of a point list. -/
def sumY (pts : List (ℚ × ℚ)) : ℚ := (pts.map (fun p => p.2)).sum

/-- Sum of the products x·y of a point list. -/
def sumXY (pts : List (ℚ × ℚ)) : ℚ := (pts.map (fun p => p.1 * p.2)).sum

/-- Sum of the squares x² of a point list. -/
def sumXX (pts : List (ℚ × ℚ)) : ℚ := (pts.map (fun p => p.1 ^ 2)).sum

/-- Determinant of the 2×2 normal-equation system of the degree-1
least-squares fit. -/
def fitDet (pts : List (ℚ × ℚ)) : ℚ :=
  (pts.length : ℚ) * sumXX pts - sumX pts ^ 2

/-- Embedding of the trend-line fit (`np.polyfit(iterations, values, 1)`,
guarded in the source by `len(values) > 1`): the closed-form
ordinary-least-squares slope and intercept, skipped for fewer than two
points. -/
def trendLine (pts : List (ℚ × ℚ)) : Option (ℚ × ℚ) :=
  if pts.length > 1 then
    some (((pts.length : ℚ) * sumXY pts - sumX pts * sumY pts) / fitDet pts,
          (sumY pts * sumXX pts - sumX pts * sumXY pts) / fitDet pts)
  else none

/-- Sum of squared residuals of the line `y = slope·x + intercept` on the
given points; the quantity a least-squares fit minimises. -/
def sse (pts : List (ℚ × ℚ)) (slope intercept : ℚ) : ℚ :=
  (pts.map (fun p => (p.2 - (slope * p.1 + intercept)) ^ 2)).sum

/-- Job runner used to exhibit a batch in which exactly one job fails: the
third submitted job (the pie chart of the first metric) raises and every
other job renders successfully. -/
def oneFailureRun : ChartJob → Except DataError String :=
  fun j =>
    if j = ChartJob.pie "m1" then .error (.metricNotFound "m1" [])
    else .ok "artifact.png"

/-- Each call of `collectResults` classifies every outcome exactly once:
the success list and the failure list together account for all jobs. -/
theorem collectResults_length (l : List (Except DataError String)) :
    (collectResults l).1.length + (collectResults l).2.length = l.length := by
  induction l with
  | nil => rfl
  | cons x rest ih =>
    cases x with
    | ok path =>
      simp only [collectResults, List.length_cons]
      omega
    | error e =>
      simp only [collectResults, List.length_cons]
      omega

/-- C9: the lru-cached metric lookup `get_available_metrics`, keyed by a
data hash and key tuple, returns the empty list for every input, so that
cache path never yields any metric. -/
theorem cached_metrics_always_empty :
    ∀ (data_hash : Int) (data_keys : List String),
      get_available_metrics data_hash data_keys = [] :=
  fun _ _ => rfl

/-- C10: constructing a `ChartStyle` succeeds exactly when the dpi is
between 72 and 600 and both figure-size components are positive, and every
successfully constructed style carries values within those bounds. -/
theorem chart_style_validation :
    ∀ (name : String) (dark : Bool) (dpi : Int) (w h : Int),
      ((∃ cs, mkChartStyle name dark dpi (w, h) = .ok cs) ↔
        (72 ≤ dpi ∧ dpi ≤ 600 ∧ 0 < w ∧ 0 < h)) ∧
      (∀ cs, mkChartStyle name dark dpi (w, h) = .ok cs →
        72 ≤ cs.dpi ∧ cs.dpi ≤ 600 ∧
          0 < cs.figure_size.1 ∧ 0 < cs.figure_size.2) := by
  intro name dark dpi w h
  have hmk : ∀ cs, mkChartStyle name dark dpi (w, h) = .ok cs →
      (72 ≤ dpi ∧ dpi ≤ 600 ∧ 0 < w ∧ 0 < h) ∧
        cs = ⟨name, dark, dpi, (w, h)⟩ := by
    intro cs hcs
    unfold mkChartStyle at hcs
    split at hcs
    · exact absurd hcs (by simp)
    · split at hcs
      · exact absurd hcs (by simp)
      · rename_i h1 h2
        push_neg at h1 h2
        simp only [not_or, not_lt] at h1 h2
        obtain ⟨hok⟩ := hcs
        exact ⟨⟨h1.1, h1.2, by omega, by omega⟩, rfl⟩
  refine ⟨⟨fun ⟨cs, hcs⟩ => (hmk cs hcs).1, fun ⟨h1, h2, h3, h4⟩ => ?_⟩,
    fun cs hcs => ?_⟩
  · refine ⟨⟨name, dark, dpi, (w, h)⟩, ?_⟩
    unfold mkChartStyle
    rw [if_neg (by omega), if_neg (by simp only [not_or, not_le]; omega)]
  · obtain ⟨⟨h1, h2, h3, h4⟩, rfl⟩ := hmk cs hcs
    exact ⟨h1, h2, h3, h4⟩

/-- Witness for C10: the default-like style (dpi 300, figure size 12×8) is
accepted and its fields satisfy the bounds. -/
theorem chart_style_validation_witness :
    mkChartStyle "default" false 300 (12, 8) =
      .ok ⟨"default", false, 300, (12, 8)⟩ ∧
    (72 ≤ (⟨"default", false, 300, (12, 8)⟩ : ChartStyle).dpi ∧
      (⟨"default", false, 300, (12, 8)⟩ : ChartStyle).dpi ≤ 600 ∧
      0 < (⟨"default", false, 300, (12, 8)⟩ : ChartStyle).figure_size.1 ∧
      0 < (⟨"default", false, 300, (12, 8)⟩ : ChartStyle).figure_size.2) :=
  ⟨by rfl,
    (chart_style_validation "default" false 300 12 8).2 _ (by rfl)⟩

/-- Counterexample for C4: for a dataset in which suite "b"'s second point
has a different key set than its first point, validation reports the
offending index as 1, not as 2 (the source enumerates
`suite_data[1:]` starting at 1, so the second point carries index 1). -/
theorem validate_mismatch_counterexample :
    validateDataIntegrity [("b", [[("x", (1 : ℚ))], [("y", (2 : ℚ))]])] =
      .error (.inconsistentStructure "b" 1) ∧
    validateDataIntegrity [("b", [[("x", (1 : ℚ))], [("y", (2 : ℚ))]])] ≠
      .error (.inconsistentStructure "b" 2) := by
  refine ⟨by rfl, fun hcontra => ?_⟩
  have h2 : Except.error (α := Unit) (DataError.inconsistentStructure "b" 1) =
      Except.error (DataError.inconsistentStructure "b" 2) := hcontra
  exact absurd (Except.error.inj h2) (by decide)

/-- C4 (amended): for every dataset whose first suite's second point has a
key set differing from that suite's first point, validation fails with a
schema error naming that suite and reporting index 1. -/
theorem validate_mismatch_reports_index_one
    (name : String) (p1 p2 : DataPoint) (rest : SuiteData)
    (tail : PerformanceData)
    (h : sameKeySet (keys p2) (keys p1) = false) :
    validateDataIntegrity ((name, p1 :: p2 :: rest) :: tail) =
      .error (.inconsistentStructure name 1) := by
  simp [validateDataIntegrity, validateSuites, validateSuite, firstMismatch, h]

/-- Witness for C4 (amended): the spec's own example, suite "b" whose
second point's key set differs from the first's. -/
theorem validate_mismatch_reports_index_one_witness :
    sameKeySet (keys [("y", (2 : ℚ))]) (keys [("x", (1 : ℚ))]) = false ∧
    validateDataIntegrity [("b", [[("x", (1 : ℚ))], [("y", (2 : ℚ))]])] =
      .error (.inconsistentStructure "b" 1) :=
  ⟨by decide,
    validate_mismatch_reports_index_one "b" [("x", 1)] [("y", 2)] [] []
      (by decide)⟩

/-- Counterexample for C5: a raw input whose single data point maps a
metric to a string passes the structural validation of `load_data` and
also passes the data-integrity validator, so loading/validation does not
fail on non-numeric metric values. -/
theorem load_accepts_non_numeric :
    load_data_validate
        (.obj [("a", .arr [.obj [("x", Json.str "hello")]])]) =
      .ok [("a", [[("x", Json.str "hello")]])] ∧
    validateDataIntegrity [("a", [[("x", Json.str "hello")]])] = .ok () :=
  ⟨rfl, rfl⟩

/-- C5 (amended): the validation `load_data` performs is purely structural;
it succeeds exactly when the root is an object of arrays of objects, never
inspecting the values inside a point, so non-numeric metric values are not
rejected at load/validation time. -/
theorem load_checks_structure_only :
    ∀ root : Json, exceptOk (load_data_validate root) = structurallyValid root := by
  have hpts : ∀ (suite : String) (pts : List Json),
      exceptOk (validatePoints suite pts) =
        pts.all (fun p => match p with | .obj _ => true | _ => false) := by
    intro suite pts
    induction pts with
    | nil => rfl
    | cons p ps ih =>
      cases p with
      | obj fields =>
        simp only [validatePoints, List.all_cons, Bool.true_and]
        rw [← ih]
        cases validatePoints suite ps <;> rfl
      | num v => rfl
      | str s => rfl
      | jbool b => rfl
      | jnull => rfl
      | arr xs => rfl
  intro root
  cases root with
  | obj fields =>
    simp only [load_data_validate, structurallyValid]
    induction fields with
    | nil => rfl
    | cons f rest ih =>
      obtain ⟨name, v⟩ := f
      cases v with
      | arr points =>
        simp only [validateSuitesRaw, List.all_cons]
        rw [← hpts name points]
        cases hv : validatePoints name points with
        | error e => rfl
        | ok pts =>
          simp only [exceptOk, Bool.true_and]
          rw [← ih]
          cases validateSuitesRaw rest <;> rfl
      | num v => rfl
      | str s => rfl
      | jbool b => rfl
      | jnull => rfl
      | obj fs => rfl
  | num v => rfl
  | str s => rfl
  | jbool b => rfl
  | jnull => rfl
  | arr xs => rfl

/-- Counterexample for C3: with an empty metric list and an empty (hence
invalid) dataset the batch operation does not fail fast; it still submits
the heatmap job, records that job's validation failure, and returns the
output directory. -/
theorem batch_no_fail_fast_counterexample :
    buildJobs [] = [ChartJob.heatmap []] ∧
    generateAllCharts [] [] "out" =
      ⟨[], [DataError.emptyData], "out"⟩ := by
  exact ⟨rfl, rfl⟩

/-- C3 (amended): the batch operation never fails fast and never raises:
for every dataset, metric list and output directory it submits at least one
job (the heatmap is always submitted), every job ends up either in the
success list or in the recorded-failure list, and the function returns the
output directory. -/
theorem batch_always_completes
    (data : PerformanceData) (metrics : List String) (out : String) :
    1 ≤ (buildJobs metrics).length ∧
    (generateAllCharts data metrics out).completed_charts.length +
        (generateAllCharts data metrics out).failures.length =
      (buildJobs metrics).length ∧
    (generateAllCharts data metrics out).returned = out := by
  have e1 : (generateAllCharts data metrics out).completed_charts =
      (collectResults ((buildJobs metrics).map (runJob data out))).1 := rfl
  have e2 : (generateAllCharts data metrics out).failures =
      (collectResults ((buildJobs metrics).map (runJob data out))).2 := rfl
  have hlen := collectResults_length ((buildJobs metrics).map (runJob data out))
  rw [List.length_map] at hlen
  refine ⟨?_, ?_, rfl⟩
  · have e3 : buildJobs metrics =
        metrics.flatMap (fun m =>
          [ChartJob.bar m, ChartJob.line m, ChartJob.pie m,
            ChartJob.histogram m])
          ++ (if metrics.length ≥ 2 then scatterJobs metrics else [])
          ++ [ChartJob.heatmap metrics] := rfl
    rw [e3]
    simp only [List.length_append, List.length_cons, List.length_nil]
    omega
  · rw [e1, e2]
    exact hlen

/-- Counterexample for C2: a batch of 10 jobs (two metrics) in which
exactly the third submitted job fails yields 9 collected successes and 1
recorded failure, but the function's return value is the output directory,
not the pair of successes and failures. -/
theorem batch_one_failure_counterexample :
    (buildJobs ["m1", "m2"]).length = 10 ∧
    (generate_all_charts_optimized oneFailureRun ["m1", "m2"]
        "out").completed_charts.length = 9 ∧
    (generate_all_charts_optimized oneFailureRun ["m1", "m2"] "out").failures =
      [DataError.metricNotFound "m1" []] ∧
    (generate_all_charts_optimized oneFailureRun ["m1", "m2"] "out").returned =
      "out" := by
  exact ⟨rfl, by decide, by decide, rfl⟩

/-- C2 (amended): whenever exactly one job of a batch fails, the failure is
caught and recorded, the success list holds all remaining N−1 sibling
jobs' artifacts, and the operation completes, returning the output
directory (the successes and failures are recorded internally, not
returned as a pair). -/
theorem batch_isolates_single_failure
    (run : ChartJob → Except DataError String) (metrics : List String)
    (out : String)
    (h : (generate_all_charts_optimized run metrics out).failures.length = 1) :
    (generate_all_charts_optimized run metrics out).completed_charts.length + 1 =
      (buildJobs metrics).length ∧
    (generate_all_charts_optimized run metrics out).returned = out := by
  have e1 : (generate_all_charts_optimized run metrics out).completed_charts =
      (collectResults ((buildJobs metrics).map run)).1 := rfl
  have e2 : (generate_all_charts_optimized run metrics out).failures =
      (collectResults ((buildJobs metrics).map run)).2 := rfl
  have hlen := collectResults_length ((buildJobs metrics).map run)
  rw [List.length_map] at hlen
  rw [e2] at h
  rw [e1]
  exact ⟨by omega, rfl⟩

/-- Witness for C2 (amended): the 10-job batch with the third job failing
has exactly one recorded failure, nine successes, and returns the output
directory. -/
theorem batch_isolates_single_failure_witness :
    (generate_all_charts_optimized oneFailureRun ["m1", "m2"]
        "out").failures.length = 1 ∧
    ((generate_all_charts_optimized oneFailureRun ["m1", "m2"]
        "out").completed_charts.length + 1 =
      (buildJobs ["m1", "m2"]).length ∧
    (generate_all_charts_optimized oneFailureRun ["m1", "m2"] "out").returned =
      "out") :=
  ⟨by decide,
    batch_isolates_single_failure oneFailureRun ["m1", "m2"] "out" (by decide)⟩

/-- Zipping two maps of one list combines the mapped values pointwise. -/
theorem zipWith_map_same {α β γ δ : Type} (k : β → γ → δ) (f : α → β)
    (g : α → γ) (l : List α) :
    List.zipWith k (l.map f) (l.map g) = l.map (fun x => k (f x) (g x)) := by
  induction l with
  | nil => rfl
  | cons a t ih => simp [ih]

/-- The running bottom offsets after `n` iterations are, suite by suite in
suite-list order, the sums of that suite's padded contributions for
iterations `0..n-1`. -/
theorem bottomValues_eq_partial_sums (series : List (List ℚ)) (n : ℕ) :
    bottomValues series n =
      series.map (fun values =>
        ((List.range n).map (fun j => values.getD j 0)).sum) := by
  induction n with
  | zero => simp [bottomValues]
  | succ i ih =>
    rw [bottomValues, ih, iterationValues, zipWith_map_same]
    simp only [List.range_succ, List.map_append, List.sum_append,
      List.map_cons, List.map_nil, List.sum_cons, List.sum_nil, add_zero]

/-- C6: the stacked accumulation takes each suite's `value[i]` when present
and 0 otherwise; after iteration `i` the running bottoms equal, per suite
in suite-list order, the sum of that suite's contributions for iterations
`0..i`; and on suite A = [1, 2], suite B = [3] the bottoms start at [0, 0],
equal [1, 3] after iteration 0, and iteration 1 contributes A = 2, B = 0. -/
theorem stack_accumulate_spec :
    (∀ (series : List (List ℚ)) (i : ℕ),
      bottomValues series (i + 1) =
        series.map (fun values =>
          ((List.range (i + 1)).map (fun j => values.getD j 0)).sum)) ∧
    bottomValues [[1, 2], [3]] 0 = [0, 0] ∧
    bottomValues [[1, 2], [3]] 1 = [1, 3] ∧
    iterationValues [[1, 2], [3]] 1 = [2, 0] :=
  ⟨fun series i => bottomValues_eq_partial_sums series (i + 1),
    by norm_num [bottomValues], by norm_num [bottomValues, iterationValues],
    by norm_num [iterationValues]⟩

/-- A running minimum never exceeds its seed. -/
theorem foldl_min_le (v : ℚ) (l : List ℚ) : l.foldl min v ≤ v := by
  induction l generalizing v with
  | nil => simp
  | cons a t ih =>
    simp only [List.foldl_cons]
    exact le_trans (ih (min v a)) (min_le_left v a)

/-- A running maximum never drops below its seed. -/
theorem le_foldl_max (v : ℚ) (l : List ℚ) : v ≤ l.foldl max v := by
  induction l generalizing v with
  | nil => simp
  | cons a t ih =>
    simp only [List.foldl_cons]
    exact le_trans (le_max_left v a) (ih (max v a))

/-- The count times the minimum of `v :: l` is at most the sum of
`v :: l`. -/
theorem foldl_min_mul_le_sum (l : List ℚ) (v : ℚ) :
    ((l.length : ℚ) + 1) * l.foldl min v ≤ v + l.sum := by
  induction l generalizing v with
  | nil => simp
  | cons a t ih =>
    have h1 := ih (min v a)
    have h2 : t.foldl min (min v a) ≤ min v a := foldl_min_le (min v a) t
    have h3 : min v a ≤ v := min_le_left v a
    have h4 : min v a ≤ a := min_le_right v a
    simp only [List.foldl_cons, List.sum_cons, List.length_cons]
    push_cast
    push_cast at h1
    nlinarith [h1, h2, h3, h4]

/-- The sum of `v :: l` is at most the count times the maximum of
`v :: l`. -/
theorem sum_le_foldl_max_mul (l : List ℚ) (v : ℚ) :
    v + l.sum ≤ ((l.length : ℚ) + 1) * l.foldl max v := by
  induction l generalizing v with
  | nil => simp
  | cons a t ih =>
    have h1 := ih (max v a)
    have h2 : max v a ≤ t.foldl max (max v a) := le_foldl_max (max v a) t
    have h3 : v ≤ max v a := le_max_left v a
    have h4 : a ≤ max v a := le_max_right v a
    simp only [List.foldl_cons, List.sum_cons, List.length_cons]
    push_cast
    push_cast at h1
    nlinarith [h1, h2, h3, h4]

/-- C1: for every non-empty list of values, `PerformanceStats.from_values`
succeeds and the statistics satisfy: `count` equals the number of values,
`min ≤ avg ≤ max`, and the standard deviation is 0 when `count` is 1. -/
theorem stats_from_values_spec (values : List ℚ) (h : values ≠ []) :
    ∃ s, PerformanceStats.from_values values = .ok s ∧
      s.count = values.length ∧
      s.min_val ≤ s.avg_val ∧ s.avg_val ≤ s.max_val ∧
      (s.count = 1 → s.std_dev = 0) := by
  match values with
  | [] => exact absurd rfl h
  | v :: rest =>
    have hn : (0 : ℚ) < ((v :: rest).length : ℚ) := by
      exact_mod_cast Nat.succ_pos rest.length
    refine ⟨_, rfl, rfl, ?_, ?_, ?_⟩
    · show rest.foldl min v ≤ (v :: rest).sum / ((v :: rest).length : ℚ)
      rw [le_div_iff₀ hn]
      have := foldl_min_mul_le_sum rest v
      simp only [List.length_cons, List.sum_cons]
      push_cast
      push_cast at this
      nlinarith [this]
    · show (v :: rest).sum / ((v :: rest).length : ℚ) ≤ rest.foldl max v
      rw [div_le_iff₀ hn]
      have := sum_le_foldl_max_mul rest v
      simp only [List.length_cons, List.sum_cons]
      push_cast
      push_cast at this
      nlinarith [this]
    · intro h1
      have hlen : (v :: rest).length = 1 := h1
      show (if (v :: rest).length > 1 then
          Real.sqrt ((popVariance (v :: rest) : ℚ) : ℝ) else 0) = 0
      rw [if_neg (by omega)]

/-- Witness for C1: the singleton list `[5]` is non-empty and its
statistics satisfy the invariants. -/
theorem stats_from_values_witness :
    [(5 : ℚ)] ≠ [] ∧
    ∃ s, PerformanceStats.from_values [(5 : ℚ)] = .ok s ∧
      s.count = [(5 : ℚ)].length ∧
      s.min_val ≤ s.avg_val ∧ s.avg_val ≤ s.max_val ∧
      (s.count = 1 → s.std_dev = 0) :=
  ⟨by simp, stats_from_values_spec [5] (by simp)⟩

/-- Reading a mapped list at an in-range index reads the original list. -/
theorem map_getD {α β : Type} (f : α → β) (l : List α) (i : ℕ) (d : β)
    (e : α) (hi : i < l.length) : (l.map f).getD i d = f (l.getD i e) := by
  induction l generalizing i with
  | nil => simp at hi
  | cons a t ih =>
    cases i with
    | zero => rfl
    | succ j =>
      simp only [List.map_cons, List.getD_cons_succ]
      exact ih j (by simpa using hi)

/-- Applying the default-on-missing read to a list of lookups that all
succeed recovers exactly the underlying values. -/
theorem map_lookup_getD_of_some {α : Type} (f : α → Option ℚ) :
    ∀ (pts : List α) (vals : List ℚ), pts.map f = vals.map some →
      pts.map (fun p => (f p).getD 0) = vals := by
  intro pts
  induction pts with
  | nil =>
    intro vals h
    cases vals with
    | nil => rfl
    | cons v vs => simp at h
  | cons p ps ih =>
    intro vals h
    cases vals with
    | nil => simp at h
    | cons v vs =>
      simp only [List.map_cons, List.cons.injEq] at h
      simp only [List.map_cons, h.1, ih vs h.2, Option.getD_some]

/-- C7: the heatmap matrix has one row per suite and one column per metric,
both in exactly the input order, and whenever `vals` is the list of metric
`j`'s values within suite `i` (every point defines the metric), cell
`(i, j)` is their arithmetic mean. -/
theorem heatmap_matrix_spec (data : PerformanceData) (metrics : List String) :
    (heatmapMatrix data metrics).length = data.length ∧
    (∀ i, i < data.length →
      ((heatmapMatrix data metrics).getD i []).length = metrics.length) ∧
    (∀ i j (vals : List ℚ), i < data.length → j < metrics.length →
      (data.getD i ("", [])).2.map
          (fun p => p.lookup (metrics.getD j "")) = vals.map some →
      ((heatmapMatrix data metrics).getD i []).getD j 0 =
        vals.sum / (vals.length : ℚ)) := by
  have hrow : ∀ i, i < data.length →
      (heatmapMatrix data metrics).getD i [] =
        metrics.map (fun m =>
          mean (suiteValues (data.getD i ("", [])).2 m)) := by
    intro i hi
    exact map_getD _ data i [] ("", []) hi
  refine ⟨by simp [heatmapMatrix], ?_, ?_⟩
  · intro i hi
    rw [hrow i hi]
    simp
  · intro i j vals hi hj hlk
    rw [hrow i hi,
      map_getD (fun m => mean (suiteValues (data.getD i ("", [])).2 m))
        metrics j 0 "" hj]
    have hsv : suiteValues (data.getD i ("", [])).2 (metrics.getD j "") =
        vals := by
      show (data.getD i ("", [])).2.map
          (fun p => (p.lookup (metrics.getD j "")).getD 0) = vals
      exact map_lookup_getD_of_some
        (fun p => p.lookup (metrics.getD j "")) (data.getD i ("", [])).2
        vals hlk
    rw [hsv]
    rfl

/-- Witness for C7: the spec's end-to-end example dataset, metric "x";
cell (0, 0) is the mean of suiteA's values [10, 12]. -/
theorem heatmap_matrix_spec_witness :
    (0 < ([("suiteA", [[("x", (10 : ℚ))], [("x", 12)]]),
        ("suiteB", [[("x", 8)]])] : PerformanceData).length) ∧
    (0 < (["x"] : List String).length) ∧
    ([("suiteA", [[("x", (10 : ℚ))], [("x", 12)]]),
        ("suiteB", [[("x", 8)]])].getD 0 ("", [])).2.map
        (fun p => p.lookup ((["x"] : List String).getD 0 "")) =
      ([10, 12] : List ℚ).map some ∧
    ((heatmapMatrix [("suiteA", [[("x", (10 : ℚ))], [("x", 12)]]),
        ("suiteB", [[("x", 8)]])] ["x"]).getD 0 []).getD 0 0 =
      ([10, 12] : List ℚ).sum / (([10, 12] : List ℚ).length : ℚ) :=
  ⟨by decide, by decide, by decide,
    (heatmap_matrix_spec
        [("suiteA", [[("x", (10 : ℚ))], [("x", 12)]]), ("suiteB", [[("x", 8)]])]
        ["x"]).2.2 0 0 [10, 12] (by decide) (by decide) (by decide)⟩

/-- Sum of the plain residuals of the fitted line, in closed form. -/
theorem residual_sum (pts : List (ℚ × ℚ)) (s c : ℚ) :
    (pts.map (fun p => p.2 - s * p.1 - c)).sum =
      sumY pts - s * sumX pts - c * (pts.length : ℚ) := by
  induction pts with
  | nil => simp [sumY, sumX]
  | cons p t ih =>
    simp only [sumY, sumX, List.map_cons, List.sum_cons,
      List.length_cons] at ih ⊢
    push_cast
    rw [ih]
    ring

/-- Sum of the x-weighted residuals of the fitted line, in closed form. -/
theorem residual_x_sum (pts : List (ℚ × ℚ)) (s c : ℚ) :
    (pts.map (fun p => (p.2 - s * p.1 - c) * p.1)).sum =
      sumXY pts - s * sumXX pts - c * sumX pts := by
  induction pts with
  | nil => simp [sumXY, sumXX, sumX]
  | cons p t ih =>
    simp only [sumXY, sumXX, sumX, List.map_cons, List.sum_cons] at ih ⊢
    rw [ih]
    ring

/-- A sum of squares is nonnegative. -/
theorem sq_sum_nonneg (pts : List (ℚ × ℚ)) (f : ℚ × ℚ → ℚ) :
    0 ≤ (pts.map (fun p => f p ^ 2)).sum := by
  induction pts with
  | nil => simp
  | cons p t ih =>
    simp only [List.map_cons, List.sum_cons]
    exact add_nonneg (sq_nonneg (f p)) ih

/-- Decomposition of the squared error of an arbitrary line into the
fitted line's squared error, a cross term built from the fitted residuals,
and a nonnegative square term. -/
theorem sse_decomp (pts : List (ℚ × ℚ)) (s c a b : ℚ) :
    sse pts a b = sse pts s c
      + 2 * ((s - a) * (pts.map (fun p => (p.2 - s * p.1 - c) * p.1)).sum
             + (c - b) * (pts.map (fun p => p.2 - s * p.1 - c)).sum)
      + (pts.map (fun p => ((s - a) * p.1 + (c - b)) ^ 2)).sum := by
  induction pts with
  | nil => simp [sse]
  | cons p t ih =>
    simp only [sse, List.map_cons, List.sum_cons] at ih ⊢
    linear_combination ih

/-- Reading the components of a successful trend-line fit. -/
theorem trendLine_eq (pts : List (ℚ × ℚ)) (s c : ℚ)
    (h : trendLine pts = some (s, c)) :
    pts.length > 1 ∧
    s = ((pts.length : ℚ) * sumXY pts - sumX pts * sumY pts) / fitDet pts ∧
    c = (sumY pts * sumXX pts - sumX pts * sumXY pts) / fitDet pts := by
  unfold trendLine at h
  split at h
  · rename_i hlen
    simp only [Option.some.injEq, Prod.mk.injEq] at h
    exact ⟨hlen, h.1.symm, h.2.symm⟩
  · exact absurd h (by simp)

/-- First normal equation: the fitted residuals sum to zero. -/
theorem normal_eq_resid (pts : List (ℚ × ℚ)) (s c : ℚ)
    (hD : fitDet pts ≠ 0)
    (hs : s = ((pts.length : ℚ) * sumXY pts - sumX pts * sumY pts) /
      fitDet pts)
    (hc : c = (sumY pts * sumXX pts - sumX pts * sumXY pts) / fitDet pts) :
    sumY pts - s * sumX pts - c * (pts.length : ℚ) = 0 := by
  subst hs hc
  unfold fitDet at hD ⊢
  field_simp
  ring

/-- Second normal equation: the x-weighted fitted residuals sum to zero. -/
theorem normal_eq_resid_x (pts : List (ℚ × ℚ)) (s c : ℚ)
    (hD : fitDet pts ≠ 0)
    (hs : s = ((pts.length : ℚ) * sumXY pts - sumX pts * sumY pts) /
      fitDet pts)
    (hc : c = (sumY pts * sumXX pts - sumX pts * sumXY pts) / fitDet pts) :
    sumXY pts - s * sumXX pts - c * sumX pts = 0 := by
  subst hs hc
  unfold fitDet at hD ⊢
  field_simp
  ring

/-- C8: the trend-line fit is skipped exactly below 2 points, any fit it
returns minimises the sum of squared residuals over all lines (ordinary
least squares) whenever the normal-equation determinant is nonzero — in
particular always for the distinct iteration abscissas 1..n used by the
line chart — and on the points (1,2), (2,4), (3,6) the fit is slope 2,
intercept 0, exactly. -/
theorem trend_line_least_squares :
    (∀ pts : List (ℚ × ℚ), pts.length < 2 → trendLine pts = none) ∧
    (∀ (pts : List (ℚ × ℚ)) (s c : ℚ), trendLine pts = some (s, c) →
      fitDet pts ≠ 0 → ∀ a b : ℚ, sse pts s c ≤ sse pts a b) ∧
    trendLine ([(1, 2), (2, 4), (3, 6)] : List (ℚ × ℚ)) = some (2, 0) := by
  refine ⟨?_, ?_, ?_⟩
  · intro pts h
    unfold trendLine
    rw [if_neg (by omega)]
  · intro pts s c htl hD a b
    obtain ⟨hlen, hs, hc⟩ := trendLine_eq pts s c htl
    have h1 := normal_eq_resid pts s c hD hs hc
    have h2 := normal_eq_resid_x pts s c hD hs hc
    have hdec := sse_decomp pts s c a b
    have hq := sq_sum_nonneg pts (fun p => (s - a) * p.1 + (c - b))
    rw [residual_x_sum, residual_sum, h1, h2] at hdec
    simp only [mul_zero, add_zero, zero_add] at hdec
    linarith [hq, hdec.ge]
  · norm_num [trendLine, sumX, sumY, sumXY, sumXX, fitDet]

/-- Witness for C8: the three-point example has a nonzero determinant, its
fit (2, 0) minimises the squared error against the competing line
`y = x + 1`, and a single point is skipped. -/
theorem trend_line_least_squares_witness :
    trendLine ([(1, 2), (2, 4), (3, 6)] : List (ℚ × ℚ)) = some (2, 0) ∧
    fitDet ([(1, 2), (2, 4), (3, 6)] : List (ℚ × ℚ)) ≠ 0 ∧
    sse ([(1, 2), (2, 4), (3, 6)] : List (ℚ × ℚ)) 2 0 ≤
      sse ([(1, 2), (2, 4), (3, 6)] : List (ℚ × ℚ)) 1 1 ∧
    trendLine ([(1, 2)] : List (ℚ × ℚ)) = none :=
  ⟨trend_line_least_squares.2.2,
    by norm_num [fitDet, sumX, sumXX],
    trend_line_least_squares.2.1 ([(1, 2), (2, 4), (3, 6)] : List (ℚ × ℚ))
      2 0 trend_line_least_squares.2.2
      (by norm_num [fitDet, sumX, sumXX]) 1 1,
    trend_line_least_squares.1 ([(1, 2)] : List (ℚ × ℚ)) (by norm_num)⟩

end Charts
